import Mathlib

/-!
# Eco_track: card-number / expiry normalisers, the checkout validator, the registration
form and the farmer login

Shallow embedding of `src/components/harb/Harb.jsx` (components `CheckoutForm` and `Harb`)
and of `src/components/authentication/farmer/farmer_login.jsx` (component `Flogin`).

A JavaScript string is a finite sequence of UTF-16 code units; it is modelled
as a list of natural numbers (one per code unit), so that `.length` is
`List.length` and the regular expressions used by the source act on single
code units exactly as they do in the engine.
-/

namespace EcoTrack

/-- A JavaScript string: its UTF-16 code units, in order. -/
abbrev JSString := List Nat

/-- UTF-16 encoding of one Unicode scalar value. -/
def utf16 (c : Char) : List Nat :=
  if c.toNat < 0x10000 then [c.toNat]
  else [0xD800 + (c.toNat - 0x10000) / 0x400, 0xDC00 + (c.toNat - 0x10000) % 0x400]

/-- The JavaScript string denoted by a string literal. -/
def js (s : String) : JSString := s.toList.flatMap utf16

/-- The code unit of the space character, the separator of `parts.join(' ')`. -/
def SPACE : Nat := 32

/-- The code unit of the slash inserted by `formatExpiry`. -/
def SLASH : Nat := 47

/-- The character class `[0-9]` (also `\d`): code units 0x30 to 0x39. -/
def isDigit (c : Nat) : Bool := decide (48 ≤ c) && decide (c ≤ 57)

/-- The character class `\s` of ECMAScript: WhiteSpace and LineTerminator code units. -/
def isWhiteSpace (c : Nat) : Bool :=
  c == 9 || c == 10 || c == 11 || c == 12 || c == 13 || c == 32 || c == 160 ||
  c == 0x1680 || (decide (0x2000 ≤ c) && decide (c ≤ 0x200A)) ||
  c == 0x2028 || c == 0x2029 || c == 0x202F || c == 0x205F || c == 0x3000 || c == 0xFEFF

/-- The calls `s.replace(/\s/g, '')` and `s.replace(/\s+/g, '')`: every whitespace code unit is deleted. -/
def removeWhiteSpace (s : JSString) : JSString := s.filter (fun c => !isWhiteSpace c)

/-- The calls `s.replace(/[^0-9]/g, '')` and `s.replace(/[^0-9]/gi, '')`: every code unit
outside `0-9` is deleted. -/
def removeNonDigits (s : JSString) : JSString := s.filter isDigit

/-- One attempt of the pattern `\d{4,16}` at the start of `s`: the greedy quantifier takes
the longest run of digits, at most 16, and needs at least 4. -/
def matchAt (s : JSString) : Option JSString :=
  let run := (s.takeWhile isDigit).take 16
  if 4 ≤ run.length then some run else none

/-- The value `matches && matches[0]` for `matches = v.match(/\d{4,16}/g)`: the leftmost
match, or `none` when `match` returns `null`. -/
def firstMatch : JSString → Option JSString
  | [] => none
  | c :: cs =>
    match matchAt (c :: cs) with
    | some m => some m
    | none => firstMatch cs

/-- The method `s.substring(a, b)` for non-negative integer arguments: both indices are
clamped to the length, swapped when out of order, and the code units in between returned. -/
def substring (s : JSString) (a b : Nat) : JSString :=
  let a1 := min a s.length
  let b1 := min b s.length
  (s.drop (min a1 b1)).take (max a1 b1 - min a1 b1)

/-- The method `s.slice(a, b)` for non-negative integer arguments. -/
def slice (s : JSString) (a b : Nat) : JSString :=
  (s.drop (min a s.length)).take (min b s.length - min a s.length)

/-- The method `s.slice(a)` for a non-negative integer argument. -/
def sliceFrom (s : JSString) (a : Nat) : JSString := s.drop (min a s.length)

/-- The loop `for (let i = 0, len = match.length; i < len; i += 4) parts.push(match.substring(i, i + 4))`
from index `i` on; the first argument bounds the number of iterations still to run. -/
def partsLoop (m : JSString) : Nat → Nat → List JSString
  | 0, _ => []
  | n + 1, i =>
    if i < m.length then substring m i (i + 4) :: partsLoop m n (i + 4) else []

/-- The array `parts` after the loop; `match.length` iterations always suffice. -/
def parts (m : JSString) : List JSString := partsLoop m m.length 0

/-- The method `parts.join(sep)`. -/
def join (sep : JSString) : List JSString → JSString
  | [] => []
  | [p] => p
  | p :: q :: ps => p ++ sep ++ join sep (q :: ps)

/-- The function `formatCardNumber` of `CheckoutForm`. -/
def formatCardNumber (value : JSString) : JSString :=
  let v := removeNonDigits (removeWhiteSpace value)
  let m := (firstMatch v).getD []
  let ps := parts m
  if ps.length ≠ 0 then join [SPACE] ps else value

/-- The function `formatExpiry` of `CheckoutForm`. -/
def formatExpiry (value : JSString) : JSString :=
  let v := removeNonDigits value
  if 3 ≤ v.length then slice v 0 2 ++ [SLASH] ++ sliceFrom v 2 else value

/-- The state `cardDetails` of `CheckoutForm`. -/
structure CardDetails where
  number : JSString
  name : JSString
  expiry : JSString
  cvc : JSString
deriving DecidableEq, Repr

/-- The `onChange` handler of the card-number input:
`setCardDetails({...cardDetails, number: formatCardNumber(e.target.value).replace(/\s/g, '')})`. -/
def numberOnChange (cardDetails : CardDetails) (text : JSString) : CardDetails :=
  { cardDetails with number := removeWhiteSpace (formatCardNumber text) }

/-- The `onChange` handler of the expiry input:
`setCardDetails({...cardDetails, expiry: formatExpiry(e.target.value)})`. -/
def expiryOnChange (cardDetails : CardDetails) (text : JSString) : CardDetails :=
  { cardDetails with expiry := formatExpiry text }

/-- The operator `!s` on a string: true exactly for the empty string. -/
def falsy (s : JSString) : Bool := s.isEmpty

/-- The guard `!cardDetails.number || cardDetails.number.replace(/\s/g, '').length !== 16`. -/
def numberFails (c : CardDetails) : Bool :=
  falsy c.number || (removeWhiteSpace c.number).length != 16

/-- The guard `!cardDetails.name`. -/
def nameFails (c : CardDetails) : Bool := falsy c.name

/-- The guard `!cardDetails.expiry || cardDetails.expiry.length !== 5`. -/
def expiryFails (c : CardDetails) : Bool := falsy c.expiry || c.expiry.length != 5

/-- The guard `!cardDetails.cvc || cardDetails.cvc.length < 3`. -/
def cvcFails (c : CardDetails) : Bool := falsy c.cvc || decide (c.cvc.length < 3)

/-- Message of the number rule. -/
def msgNumber : JSString := js "Please enter a valid 16-digit card number"

/-- Message of the name rule. -/
def msgName : JSString := js "Please enter cardholder name"

/-- Message of the expiry rule. -/
def msgExpiry : JSString := js "Please enter a valid expiry date (MM/YY)"

/-- Message of the cvc rule. -/
def msgCvc : JSString := js "Please enter a valid CVC"

/-- The React state of `CheckoutForm`, with a counter of the calls made to the `onSuccess` prop. -/
structure CheckoutState where
  paymentError : Option JSString
  processing : Bool
  paymentSuccess : Bool
  cardDetails : CardDetails
  onSuccessCalls : Nat
deriving DecidableEq, Repr

/-- The state with which `CheckoutForm` mounts. -/
def CheckoutState.initial : CheckoutState :=
  { paymentError := none, processing := false, paymentSuccess := false,
    cardDetails := { number := [], name := [], expiry := [], cvc := [] },
    onSuccessCalls := 0 }

/-- The handler `handleSubmit` of `CheckoutForm`, run to completion (both timers fired). -/
def handleSubmit (s : CheckoutState) : CheckoutState :=
  let s1 := { s with processing := true }
  let s2 := { s1 with paymentError := none }
  if numberFails s2.cardDetails then
    { s2 with paymentError := some msgNumber, processing := false }
  else if nameFails s2.cardDetails then
    { s2 with paymentError := some msgName, processing := false }
  else if expiryFails s2.cardDetails then
    { s2 with paymentError := some msgExpiry, processing := false }
  else if cvcFails s2.cardDetails then
    { s2 with paymentError := some msgCvc, processing := false }
  else
    let s3 := { s2 with paymentSuccess := true }
    { s3 with onSuccessCalls := s3.onSuccessCalls + 1 }

/-- The card rules in the fixed order number, name, expiry, cvc: each failing guard of
`handleSubmit` paired with the message it sets. -/
def cardRules : List ((CardDetails → Bool) × JSString) :=
  [(numberFails, msgNumber), (nameFails, msgName), (expiryFails, msgExpiry), (cvcFails, msgCvc)]

/-- The message of the first failing rule of a card record, in the order of `cardRules`. -/
def firstFailure (c : CardDetails) : Option JSString :=
  ((cardRules.filter (fun r => r.1 c)).map Prod.snd).head?

/-- A fully formed `MM/YY` string: two decimal digits, a slash, two decimal digits. -/
def isMMYY : JSString → Bool
  | [a, b, x, c, d] => isDigit a && isDigit b && x == SLASH && isDigit c && isDigit d
  | _ => false

/-- The record with a 16-digit number, an empty name, expiry 12/25 and cvc 123. -/
def nameMissingCard : CardDetails :=
  { number := js "4111111111111111", name := js "", expiry := js "12/25", cvc := js "123" }

/-- The card record of a freshly mounted form. -/
def emptyCard : CardDetails := CheckoutState.initial.cardDetails

/-- The names of the card inputs, the value of `e.target.name` in `handleCardChange`. -/
inductive CardField where
  | number
  | name
  | expiry
  | cvc
deriving DecidableEq, Repr

/-- The handler `handleCardChange` of `CheckoutForm`:
`setCardDetails(prev => ({...prev, [name]: value}))`. -/
def handleCardChange (prev : CardDetails) (field : CardField) (value : JSString) : CardDetails :=
  match field with
  | .number => { prev with number := value }
  | .name => { prev with name := value }
  | .expiry => { prev with expiry := value }
  | .cvc => { prev with cvc := value }

/-- The verdict of the card validator: none of the four guards of `handleSubmit` fires. -/
def cardValid (c : CardDetails) : Bool :=
  !numberFails c && !nameFails c && !expiryFails c && !cvcFails c

/-- A sequence of submissions: each card record is put in the form and `handleSubmit` runs. -/
def submitAll (s : CheckoutState) : List CardDetails → CheckoutState
  | [] => s
  | c :: cs => submitAll (handleSubmit { s with cardDetails := c }) cs

/-- A card record filled in through the four inputs of the form, the cvc being `abc`. -/
def lettersCvcCard : CardDetails :=
  handleCardChange
    (expiryOnChange
      (handleCardChange (numberOnChange emptyCard (js "4111111111111111")) .name (js "A"))
      (js "1225"))
    .cvc (js "abc")

/-! ## The registration form (component `Harb`) -/

/-- The state `formData` of `Harb`. -/
structure FormData where
  companyName : JSString
  brandName : JSString
  registrationNumber : JSString
  headOfficeAddress : JSString
  phoneNumber : JSString
  emailAddress : JSString
  website : JSString
deriving DecidableEq, Repr

/-- The record `formData` is created with and is reset to after a successful save. -/
def FormData.empty : FormData :=
  { companyName := [], brandName := [], registrationNumber := [], headOfficeAddress := [],
    phoneNumber := [], emailAddress := [], website := [] }

/-- The keys of `formData`, which are also the possible keys of the error object. -/
inductive FormField where
  | companyName
  | brandName
  | registrationNumber
  | headOfficeAddress
  | phoneNumber
  | emailAddress
  | website
deriving DecidableEq, Repr

/-- The property access `formData[key]`. -/
def FormData.get (fd : FormData) : FormField → JSString
  | .companyName => fd.companyName
  | .brandName => fd.brandName
  | .registrationNumber => fd.registrationNumber
  | .headOfficeAddress => fd.headOfficeAddress
  | .phoneNumber => fd.phoneNumber
  | .emailAddress => fd.emailAddress
  | .website => fd.website

/-- The five required fields of the registration form. -/
def requiredFields : List FormField :=
  [.companyName, .registrationNumber, .headOfficeAddress, .phoneNumber, .emailAddress]

/-- The object `errors` (and the state `formErrors`): its entries in insertion order. -/
abbrev ErrorMap := List (FormField × JSString)

/-- The assignment `errors[key] = msg`: an existing entry is overwritten in place, a new key
is appended. -/
def ErrorMap.assign (errors : ErrorMap) (key : FormField) (msg : JSString) : ErrorMap :=
  if errors.any (fun e => e.1 == key) then
    errors.map (fun e => if e.1 == key then (key, msg) else e)
  else errors ++ [(key, msg)]

/-- The call `Object.keys(errors)`. -/
def ErrorMap.keys (errors : ErrorMap) : List FormField := errors.map Prod.fst

namespace Harb

/-- The React state of `Harb`. -/
structure State where
  formData : FormData
  isLoading : Bool
  showPayment : Bool
  formErrors : ErrorMap
deriving DecidableEq, Repr

/-- The state with which `Harb` mounts. -/
def State.initial : State :=
  { formData := FormData.empty, isLoading := false, showPayment := false, formErrors := [] }

/-- The object `errors` built by the five `if` statements of `validateForm`. -/
def validateErrors (formData : FormData) : ErrorMap :=
  let e0 : ErrorMap := []
  let e1 := if falsy formData.companyName then
    e0.assign .companyName (js "Company name is required") else e0
  let e2 := if falsy formData.registrationNumber then
    e1.assign .registrationNumber (js "Registration number is required") else e1
  let e3 := if falsy formData.headOfficeAddress then
    e2.assign .headOfficeAddress (js "Address is required") else e2
  let e4 := if falsy formData.phoneNumber then
    e3.assign .phoneNumber (js "Phone number is required") else e3
  let e5 := if falsy formData.emailAddress then
    e4.assign .emailAddress (js "Email is required") else e4
  e5

/-- The function `validateForm` of `Harb`: the state after `setFormErrors(errors)` and the
returned boolean `Object.keys(errors).length === 0`. -/
def validateForm (s : State) : State × Bool :=
  let errors := validateErrors s.formData
  ({ s with formErrors := errors }, errors.keys.length == 0)

/-- The handler `handleSubmit` of `Harb`. -/
def handleSubmit (s : State) : State :=
  let r := validateForm s
  if r.2 then { r.1 with showPayment := true } else r.1

/-- The object handed to `set(dbRef, ...)` by `saveToDatabase`. -/
structure CompanyRecord where
  companyName : JSString
  brandName : JSString
  registrationNumber : JSString
  headOfficeAddress : JSString
  phoneNumber : JSString
  emailAddress : JSString
  website : JSString
  timestamp : Nat
  paymentStatus : JSString
  amountPaid : Nat
deriving DecidableEq, Repr

/-- The outcome of `await set(dbRef, record)`: it resolves, or rejects with an error whose
`message` is given. -/
inductive WriteOutcome where
  | ok
  | error (message : JSString)
deriving DecidableEq, Repr

/-- What one run of `saveToDatabase` leaves behind: the state, the key path and record
passed to the store, and the texts shown by `alert`. -/
structure SaveResult where
  state : State
  path : JSString
  record : CompanyRecord
  alerts : List JSString
deriving DecidableEq, Repr

/-- The function `saveToDatabase` of `Harb`, with the value of `generateUniqueId()`, the
reading of `Date.now()` and the outcome of the store write taken as inputs. -/
def saveToDatabase (s : State) (companyId : JSString) (now : Nat) (outcome : WriteOutcome) :
    SaveResult :=
  let s1 := { s with isLoading := true }
  let path := js "companies/" ++ companyId
  let record : CompanyRecord :=
    { companyName := s1.formData.companyName, brandName := s1.formData.brandName,
      registrationNumber := s1.formData.registrationNumber,
      headOfficeAddress := s1.formData.headOfficeAddress,
      phoneNumber := s1.formData.phoneNumber, emailAddress := s1.formData.emailAddress,
      website := s1.formData.website,
      timestamp := now, paymentStatus := js "completed", amountPaid := 99 }
  match outcome with
  | .ok =>
    let s2 := { s1 with formData := FormData.empty }
    let s3 := { s2 with isLoading := false }
    { state := { s3 with showPayment := false }, path := path, record := record, alerts := [] }
  | .error message =>
    let s3 := { s1 with isLoading := false }
    { state := { s3 with showPayment := false }, path := path, record := record,
      alerts := [js "Error saving data: " ++ message] }

end Harb

/-! ## The farmer login (component `Flogin`) -/

namespace Flogin

/-- The React state `error` of `Flogin`, with the log of the calls made to `navigate`. -/
structure State where
  error : JSString
  navigations : List JSString
deriving DecidableEq, Repr

/-- The outcome of the identity provider: the promise resolves, or rejects with an error
whose `message` is given. -/
inductive SignInOutcome where
  | success
  | failure (message : JSString)
deriving DecidableEq, Repr

/-- The handler `handleLogin` of `Flogin`, the outcome of `signInWithEmailAndPassword`
taken as an input. -/
def handleLogin (s : State) (outcome : SignInOutcome) : State :=
  let s1 := { s with error := js "" }
  match outcome with
  | .success => { s1 with navigations := s1.navigations ++ [js "/farmer"] }
  | .failure message => { s1 with error := message }

/-- The handler `handleGoogleSignIn` of `Flogin`, the outcome of `signInWithPopup` taken
as an input. -/
def handleGoogleSignIn (s : State) (outcome : SignInOutcome) : State :=
  match outcome with
  | .success => { s with navigations := s.navigations ++ [js "/farmer"] }
  | .failure message => { s with error := message }

end Flogin

/-- A card record filled in through the inputs of the form, all but its expiry. -/
def expiryPendingCard : CardDetails :=
  handleCardChange
    (handleCardChange (numberOnChange emptyCard (js "4111111111111111")) .name (js "John Doe"))
    .cvc (js "123")

/-- The month a stored expiry denotes: the number written by its first two code units,
when both are decimal digits. -/
def expiryMonth : JSString → Option Nat
  | a :: b :: _ => if isDigit a && isDigit b then some ((a - 48) * 10 + (b - 48)) else none
  | _ => none

/-! ## Character classes -/

theorem isDigit_iff (c : Nat) : isDigit c = true ↔ 48 ≤ c ∧ c ≤ 57 := by
  simp [isDigit]

theorem not_isWhiteSpace_of_isDigit {c : Nat} (h : isDigit c = true) : isWhiteSpace c = false := by
  rw [isDigit_iff] at h
  simp only [isWhiteSpace, Bool.or_eq_false_iff, Bool.and_eq_false_iff, beq_eq_false_iff_ne,
    decide_eq_false_iff_not]
  omega

theorem isWhiteSpace_SPACE : isWhiteSpace SPACE = true := by decide

theorem isDigit_SPACE : isDigit SPACE = false := by decide

theorem removeNonDigits_removeWhiteSpace (s : JSString) :
    removeNonDigits (removeWhiteSpace s) = removeNonDigits s := by
  simp only [removeNonDigits, removeWhiteSpace, List.filter_filter]
  congr 1
  funext c
  cases h : isDigit c
  · simp
  · simp [not_isWhiteSpace_of_isDigit h]

theorem removeNonDigits_all (s : JSString) : ∀ c ∈ removeNonDigits s, isDigit c = true := by
  intro c hc
  simpa using (List.mem_filter.mp hc).2

theorem removeNonDigits_eq_self {s : JSString} (h : ∀ c ∈ s, isDigit c = true) :
    removeNonDigits s = s :=
  List.filter_eq_self.mpr h

theorem removeWhiteSpace_eq_self {s : JSString} (h : ∀ c ∈ s, isWhiteSpace c = false) :
    removeWhiteSpace s = s :=
  List.filter_eq_self.mpr (by intro c hc; simp [h c hc])

theorem removeWhiteSpace_idem (s : JSString) :
    removeWhiteSpace (removeWhiteSpace s) = removeWhiteSpace s := by
  simp [removeWhiteSpace, List.filter_filter]

theorem removeWhiteSpace_all (s : JSString) : ∀ c ∈ removeWhiteSpace s, isWhiteSpace c = false := by
  intro c hc
  simpa using (List.mem_filter.mp hc).2

/-! ## The match of `\d{4,16}` on a string of digits -/

theorem takeWhile_isDigit_eq_self {v : JSString} (h : ∀ c ∈ v, isDigit c = true) :
    v.takeWhile isDigit = v := by
  induction v with
  | nil => rfl
  | cons c cs ih =>
    have hc : isDigit c = true := h c (List.mem_cons_self _ _)
    have hcs : ∀ d ∈ cs, isDigit d = true := fun d hd => h d (List.mem_cons_of_mem _ hd)
    simp [List.takeWhile, hc, ih hcs]

theorem matchAt_of_short {s : JSString} (h : s.length < 4) : matchAt s = none := by
  have h1 : ((s.takeWhile isDigit).take 16).length < 4 := by
    have := (List.takeWhile_sublist (l := s) isDigit).length_le
    simp only [List.length_take]
    omega
  simp only [matchAt]
  rw [if_neg (by omega)]

theorem firstMatch_of_short : ∀ (s : JSString), s.length < 4 → firstMatch s = none
  | [], _ => rfl
  | c :: cs, h => by
    have hcs : cs.length < 4 := by simp at h; omega
    simp [firstMatch, matchAt_of_short h, firstMatch_of_short cs hcs]

theorem firstMatch_of_digits {v : JSString} (hd : ∀ c ∈ v, isDigit c = true)
    (h : 4 ≤ v.length) : firstMatch v = some (v.take 16) := by
  cases v with
  | nil => simp at h
  | cons c cs =>
    have hm : matchAt (c :: cs) = some ((c :: cs).take 16) := by
      simp only [matchAt, takeWhile_isDigit_eq_self hd]
      rw [if_pos]
      simp only [List.length_take]
      omega
    simp [firstMatch, hm]

/-! ## The grouping loop and `join` -/

theorem substring_four (m : JSString) (i : Nat) :
    substring m i (i + 4) = (m.drop i).take 4 := by
  unfold substring
  by_cases h1 : m.length ≤ i
  · have e1 : min i m.length = m.length := by omega
    have e2 : min (i + 4) m.length = m.length := by omega
    simp only [e1, e2, min_self, max_self, Nat.sub_self, List.take_zero, List.drop_length]
    rw [List.drop_eq_nil_of_le h1]
    rfl
  · have e1 : min i m.length = i := by omega
    by_cases h2 : i + 4 ≤ m.length
    · have e2 : min (i + 4) m.length = i + 4 := by omega
      have e3 : min i (i + 4) = i := by omega
      have e4 : max i (i + 4) = i + 4 := by omega
      simp only [e1, e2, e3, e4]
      congr 1
      omega
    · have e2 : min (i + 4) m.length = m.length := by omega
      have e3 : min i m.length = i := by omega
      have e4 : max i m.length = m.length := by omega
      simp only [e1, e2, e3, e4]
      have hl : (m.drop i).length = m.length - i := by simp
      rw [List.take_of_length_le (by omega), List.take_of_length_le (by omega)]

theorem partsLoop_flatten (m : JSString) :
    ∀ (n i : Nat), m.length ≤ i + 4 * n → (partsLoop m n i).flatten = m.drop i
  | 0, i, h => by
    simp only [partsLoop, List.flatten_nil]
    exact (List.drop_eq_nil_of_le (by omega)).symm
  | n + 1, i, h => by
    by_cases hi : i < m.length
    · have ih := partsLoop_flatten m n (i + 4) (by omega)
      simp only [partsLoop, if_pos hi, List.flatten_cons, ih, substring_four]
      rw [← List.drop_drop]
      exact List.take_append_drop 4 (m.drop i)
    · simp only [partsLoop, if_neg hi, List.flatten_nil]
      exact (List.drop_eq_nil_of_le (by omega)).symm

theorem partsLoop_length_bounds (m : JSString) :
    ∀ (n i : Nat), ∀ g ∈ partsLoop m n i, 1 ≤ g.length ∧ g.length ≤ 4
  | 0, _, g, hg => by simp [partsLoop] at hg
  | n + 1, i, g, hg => by
    by_cases hi : i < m.length
    · simp only [partsLoop, if_pos hi, List.mem_cons] at hg
      rcases hg with rfl | hg
      · rw [substring_four]
        simp only [List.length_take, List.length_drop]
        omega
      · exact partsLoop_length_bounds m n (i + 4) g hg
    · simp [partsLoop, if_neg hi] at hg

theorem partsLoop_ne_nil_lt (m : JSString) (n i : Nat) (h : partsLoop m n i ≠ []) :
    i < m.length := by
  cases n with
  | zero => simp [partsLoop] at h
  | succ n =>
    by_contra hi
    simp [partsLoop, if_neg hi] at h

theorem partsLoop_dropLast_length (m : JSString) :
    ∀ (n i : Nat), ∀ g ∈ (partsLoop m n i).dropLast, g.length = 4
  | 0, _, g, hg => by simp [partsLoop] at hg
  | n + 1, i, g, hg => by
    by_cases hi : i < m.length
    · simp only [partsLoop, if_pos hi] at hg
      by_cases hr : partsLoop m n (i + 4) = []
      · simp [hr] at hg
      · obtain ⟨q, qs, hq⟩ := List.exists_cons_of_ne_nil hr
        have hlt := partsLoop_ne_nil_lt m n (i + 4) hr
        rw [hq, List.dropLast_cons₂, List.mem_cons] at hg
        rcases hg with rfl | hg
        · rw [substring_four]
          simp only [List.length_take, List.length_drop]
          omega
        · rw [← hq] at hg
          exact partsLoop_dropLast_length m n (i + 4) g hg
    · simp [partsLoop, if_neg hi] at hg

theorem parts_flatten (m : JSString) : (parts m).flatten = m := by
  have h := partsLoop_flatten m m.length 0 (by omega)
  simpa [parts] using h

theorem parts_ne_nil {m : JSString} (h : m ≠ []) : parts m ≠ [] := by
  obtain ⟨c, cs, rfl⟩ := List.exists_cons_of_ne_nil h
  simp [parts, partsLoop]

theorem parts_nil : parts [] = [] := rfl

theorem filter_join (p : Nat → Bool) (sep : JSString) (hsep : sep.filter p = []) :
    ∀ ps : List JSString, (join sep ps).filter p = ps.flatten.filter p
  | [] => rfl
  | [q] => by simp [join]
  | q :: r :: ps => by
    have ih := filter_join p sep hsep (r :: ps)
    simp only [join, List.filter_append, hsep, List.append_nil, ih, List.flatten_cons]

theorem removeWhiteSpace_join_space (ps : List JSString) :
    removeWhiteSpace (join [SPACE] ps) = removeWhiteSpace ps.flatten :=
  filter_join _ [SPACE] (by decide) ps

theorem removeNonDigits_join_space (ps : List JSString) :
    removeNonDigits (join [SPACE] ps) = removeNonDigits ps.flatten :=
  filter_join _ [SPACE] (by decide) ps

/-! ## The two branches of `formatCardNumber` -/

theorem formatCardNumber_of_ge4 (t : JSString) (h : 4 ≤ (removeNonDigits t).length) :
    formatCardNumber t = join [SPACE] (parts ((removeNonDigits t).take 16)) := by
  have hm := firstMatch_of_digits (removeNonDigits_all t) h
  have hne : (removeNonDigits t).take 16 ≠ [] := by
    intro he
    have := congrArg List.length he
    simp only [List.length_take, List.length_nil] at this
    omega
  have hp : (parts ((removeNonDigits t).take 16)).length ≠ 0 := by
    intro he
    exact parts_ne_nil hne (List.length_eq_zero.mp he)
  simp only [formatCardNumber, removeNonDigits_removeWhiteSpace, hm, Option.getD_some]
  rw [if_pos hp]

theorem formatCardNumber_of_lt4 (t : JSString) (h : (removeNonDigits t).length < 4) :
    formatCardNumber t = t := by
  have hm := firstMatch_of_short (removeNonDigits t) h
  simp [formatCardNumber, removeNonDigits_removeWhiteSpace, hm, parts_nil]

theorem take_min_length (v : JSString) : v.take (min v.length 16) = v.take 16 := by
  by_cases h : v.length ≤ 16
  · rw [Nat.min_eq_left h, List.take_of_length_le (le_refl _), List.take_of_length_le h]
  · rw [Nat.min_eq_right (by omega)]

theorem join_head (sep : JSString) :
    ∀ (ps : List JSString), (∀ g ∈ ps, g ≠ []) → ∀ c, (join sep ps).head? = some c →
      c ∈ ps.flatten
  | [], _, c, h => by simp [join] at h
  | [p], _, c, h => by
    simp only [join] at h
    simpa using List.mem_of_mem_head? h
  | p :: q :: ps, hne, c, h => by
    have hp : p ≠ [] := hne p (List.mem_cons_self _ _)
    obtain ⟨a, as, rfl⟩ := List.exists_cons_of_ne_nil hp
    simp only [join, List.cons_append, List.head?_cons, Option.some.injEq] at h
    subst h
    simp

theorem join_ne_nil (sep : JSString) :
    ∀ (ps : List JSString), ps ≠ [] → (∀ g ∈ ps, g ≠ []) → join sep ps ≠ []
  | [], h, _ => absurd rfl h
  | [p], _, hne => by
    simpa [join] using hne p (List.mem_cons_self _ _)
  | p :: q :: ps, _, hne => by
    have hp : p ≠ [] := hne p (List.mem_cons_self _ _)
    simp [join, hp]

theorem join_getLast (sep : JSString) :
    ∀ (ps : List JSString), (∀ g ∈ ps, g ≠ []) → ∀ c, (join sep ps).getLast? = some c →
      c ∈ ps.flatten
  | [], _, c, h => by simp [join] at h
  | [p], _, c, h => by
    simp only [join] at h
    simpa using List.mem_of_getLast?_eq_some h
  | p :: q :: ps, hne, c, h => by
    have hne2 : ∀ g ∈ q :: ps, g ≠ [] := fun g hg => hne g (List.mem_cons_of_mem _ hg)
    have hj : join sep (q :: ps) ≠ [] := join_ne_nil sep (q :: ps) (by simp) hne2
    simp only [join] at h
    rw [List.getLast?_append_of_ne_nil _ hj] at h
    have ih := join_getLast sep (q :: ps) hne2 c h
    rw [List.flatten_cons]
    exact List.mem_append_right _ ih

theorem formatExpiry_of_ge3 (t : JSString) (h : 3 ≤ (removeNonDigits t).length) :
    ∃ d1 d2 rest, removeNonDigits t = d1 :: d2 :: rest ∧
      formatExpiry t = d1 :: d2 :: SLASH :: rest := by
  match hv : removeNonDigits t, h with
  | d1 :: d2 :: d3 :: rest, _ =>
    refine ⟨d1, d2, d3 :: rest, rfl, ?_⟩
    simp [formatExpiry, hv, slice, sliceFrom]

theorem formatExpiry_of_lt3 (t : JSString) (h : (removeNonDigits t).length < 3) :
    formatExpiry t = t := by
  simp only [formatExpiry]
  rw [if_neg (by omega)]

/-! ## The claims -/

/-- C1 (as amended): for every text typed into the card-number field that contains at least
4 decimal digits or consists only of decimal digits and whitespace, the value stored in
`cardDetails.number` by the `onChange` handler consists only of decimal digits 0-9; for
every other text the stored value holds a character that is not a decimal digit. -/
theorem C1_stored_number_digits (cd : CardDetails) (t : JSString) :
    (∀ c ∈ (numberOnChange cd t).number, isDigit c = true) ↔
      (4 ≤ (removeNonDigits t).length ∨
        ∀ c ∈ t, isDigit c = true ∨ isWhiteSpace c = true) := by
  by_cases h : 4 ≤ (removeNonDigits t).length
  · refine ⟨fun _ => Or.inl h, fun _ c hc => ?_⟩
    simp only [numberOnChange, formatCardNumber_of_ge4 t h, removeWhiteSpace_join_space,
      parts_flatten] at hc
    have h1 : c ∈ (removeNonDigits t).take 16 := (List.mem_filter.mp hc).1
    exact removeNonDigits_all t c (List.mem_of_mem_take h1)
  · have hs : (numberOnChange cd t).number = removeWhiteSpace t := by
      simp only [numberOnChange, formatCardNumber_of_lt4 t (by omega)]
    rw [hs]
    constructor
    · intro hall
      refine Or.inr (fun c hc => ?_)
      cases hw : isWhiteSpace c
      · exact Or.inl (hall c (List.mem_filter.mpr ⟨hc, by simp [hw]⟩))
      · exact Or.inr rfl
    · intro hor c hc
      rcases hor with h4 | hall
      · exact absurd h4 h
      · have hmem := List.mem_filter.mp hc
        have hnw : isWhiteSpace c = false := by simpa using hmem.2
        rcases hall c hmem.1 with hd | hw
        · exact hd
        · rw [hnw] at hw
          exact absurd hw Bool.false_ne_true

/-- C1 witness: the text `12ab34` holds four digits and is stored as digits only; the text
`4 1` holds two digits and a space and is stored as `41`. -/
theorem C1_stored_number_digits_witness :
    (4 ≤ (removeNonDigits (js "12ab34")).length ∧
      (numberOnChange emptyCard (js "12ab34")).number = js "1234" ∧
      ∀ c ∈ (numberOnChange emptyCard (js "12ab34")).number, isDigit c = true) ∧
    ((∀ c ∈ js "4 1", isDigit c = true ∨ isWhiteSpace c = true) ∧
      (numberOnChange emptyCard (js "4 1")).number = js "41" ∧
      ∀ c ∈ (numberOnChange emptyCard (js "4 1")).number, isDigit c = true) :=
  ⟨⟨by decide, by decide,
    (C1_stored_number_digits emptyCard (js "12ab34")).mpr (Or.inl (by decide))⟩,
   ⟨by decide, by decide,
    (C1_stored_number_digits emptyCard (js "4 1")).mpr (Or.inr (by decide))⟩⟩

/-- C1 counterexample: typing `abc` stores `abc`, which is not made of decimal digits. -/
theorem C1_counterexample :
    (numberOnChange emptyCard (js "abc")).number = js "abc" ∧
      ¬ ∀ c ∈ (numberOnChange emptyCard (js "abc")).number, isDigit c = true := by
  decide

/-- C2 (as amended): for every text typed into the card-number field that contains at least
4 decimal digits, if the stored number passes the number rule of `handleSubmit`, then the
stored number is a string of exactly 16 decimal digits. -/
theorem C2_passing_number_16_digits (cd : CardDetails) (t : JSString)
    (h : 4 ≤ (removeNonDigits t).length)
    (hpass : numberFails (numberOnChange cd t) = false) :
    (numberOnChange cd t).number.length = 16 ∧
      ∀ c ∈ (numberOnChange cd t).number, isDigit c = true := by
  refine ⟨?_, ?_⟩
  · simp only [numberFails, numberOnChange, Bool.or_eq_false_iff, removeWhiteSpace_idem] at hpass
    simpa using hpass.2
  · intro c hc
    simp only [numberOnChange, formatCardNumber_of_ge4 t h, removeWhiteSpace_join_space,
      parts_flatten] at hc
    have h1 : c ∈ (removeNonDigits t).take 16 := (List.mem_filter.mp hc).1
    exact removeNonDigits_all t c (List.mem_of_mem_take h1)

/-- C2 witness: the text `4111 1111 1111 1111` passes the number rule and is stored as
16 decimal digits. -/
theorem C2_passing_number_16_digits_witness :
    4 ≤ (removeNonDigits (js "4111 1111 1111 1111")).length ∧
      numberFails (numberOnChange emptyCard (js "4111 1111 1111 1111")) = false ∧
      (numberOnChange emptyCard (js "4111 1111 1111 1111")).number.length = 16 ∧
      ∀ c ∈ (numberOnChange emptyCard (js "4111 1111 1111 1111")).number, isDigit c = true :=
  ⟨by decide, by decide,
    C2_passing_number_16_digits emptyCard (js "4111 1111 1111 1111") (by decide) (by decide)⟩

/-- C2 counterexample: the sixteen letters `abcdefghijklmnop` are stored unchanged and pass
the number rule, yet the stored number is not a string of 16 decimal digits. -/
theorem C2_counterexample :
    numberFails (numberOnChange emptyCard (js "abcdefghijklmnop")) = false ∧
      ¬ ((numberOnChange emptyCard (js "abcdefghijklmnop")).number.length = 16 ∧
        ∀ c ∈ (numberOnChange emptyCard (js "abcdefghijklmnop")).number, isDigit c = true) := by
  decide

/-- C3: `handleSubmit` lets the payment proceed (leaves `paymentError` null, stays in
`processing`, and calls `onSuccess`) if and only if the number with whitespace removed has
length exactly 16, the name is non-empty, the expiry has length exactly 5 and the cvc has
length at least 3. -/
theorem C3_proceeds_iff_all_rules (s : CheckoutState) :
    ((handleSubmit s).paymentError = none ↔
      ((removeWhiteSpace s.cardDetails.number).length = 16 ∧ s.cardDetails.name ≠ [] ∧
        s.cardDetails.expiry.length = 5 ∧ 3 ≤ s.cardDetails.cvc.length)) ∧
    ((handleSubmit s).onSuccessCalls = s.onSuccessCalls + 1 ↔
      ((removeWhiteSpace s.cardDetails.number).length = 16 ∧ s.cardDetails.name ≠ [] ∧
        s.cardDetails.expiry.length = 5 ∧ 3 ≤ s.cardDetails.cvc.length)) ∧
    ((handleSubmit s).processing = true ↔
      ((removeWhiteSpace s.cardDetails.number).length = 16 ∧ s.cardDetails.name ≠ [] ∧
        s.cardDetails.expiry.length = 5 ∧ 3 ≤ s.cardDetails.cvc.length)) := by
  obtain ⟨pe, pr, ps, ⟨number, name, expiry, cvc⟩, calls⟩ := s
  have hnum : numberFails ⟨number, name, expiry, cvc⟩ = true ↔
      ¬ (removeWhiteSpace number).length = 16 := by
    cases number with
    | nil => simp [numberFails, falsy, removeWhiteSpace]
    | cons a as => simp [numberFails, falsy]
  have hname : nameFails ⟨number, name, expiry, cvc⟩ = true ↔ name = [] := by
    simp [nameFails, falsy]
  have hexp : expiryFails ⟨number, name, expiry, cvc⟩ = true ↔ ¬ expiry.length = 5 := by
    cases expiry with
    | nil => simp [expiryFails, falsy]
    | cons a as => simp [expiryFails, falsy]
  have hcvc : cvcFails ⟨number, name, expiry, cvc⟩ = true ↔ ¬ 3 ≤ cvc.length := by
    cases cvc with
    | nil => simp [cvcFails, falsy]
    | cons a as =>
      simp only [cvcFails, falsy, List.isEmpty_cons, Bool.false_or, decide_eq_true_eq]
      omega
  simp only [handleSubmit]
  generalize numberFails ⟨number, name, expiry, cvc⟩ = b1 at hnum ⊢
  generalize nameFails ⟨number, name, expiry, cvc⟩ = b2 at hname ⊢
  generalize expiryFails ⟨number, name, expiry, cvc⟩ = b3 at hexp ⊢
  generalize cvcFails ⟨number, name, expiry, cvc⟩ = b4 at hcvc ⊢
  cases b1 <;> cases b2 <;> cases b3 <;> cases b4 <;> simp_all

/-- C4: the single message `handleSubmit` leaves in `paymentError` is the message of the
first failing rule in the fixed order number, name, expiry, cvc; there is one exactly when
some rule fails; for
the record with a 16-digit number, an empty name, expiry `12/25` and cvc `123` it is
the cardholder-name message. -/
theorem C4_first_failure_wins (s : CheckoutState) :
    (handleSubmit s).paymentError = firstFailure s.cardDetails ∧
    ((firstFailure s.cardDetails).isSome =
      (numberFails s.cardDetails || nameFails s.cardDetails || expiryFails s.cardDetails ||
        cvcFails s.cardDetails)) ∧
    (handleSubmit { s with cardDetails := nameMissingCard }).paymentError =
      some (js "Please enter cardholder name") := by
  refine ⟨?_, ?_, ?_⟩
  · simp only [handleSubmit, firstFailure, cardRules, List.filter]
    cases numberFails s.cardDetails <;> cases nameFails s.cardDetails <;>
      cases expiryFails s.cardDetails <;> cases cvcFails s.cardDetails <;> simp
  · simp only [handleSubmit, firstFailure, cardRules, List.filter]
    cases numberFails s.cardDetails <;> cases nameFails s.cardDetails <;>
      cases expiryFails s.cardDetails <;> cases cvcFails s.cardDetails <;> simp
  · have h1 : numberFails nameMissingCard = false := by decide
    have h2 : nameFails nameMissingCard = true := by decide
    simp only [handleSubmit, h1, h2]
    simp [msgName]

/-- C5: for every string `d` made only of decimal digits with `4 ≤ length d ≤ 16`,
removing all whitespace from `formatCardNumber d` returns `d` unchanged. -/
theorem C5_format_strip_roundtrip (d : JSString) (hd : ∀ c ∈ d, isDigit c = true)
    (h4 : 4 ≤ d.length) (h16 : d.length ≤ 16) :
    removeWhiteSpace (formatCardNumber d) = d := by
  have hv : removeNonDigits d = d := removeNonDigits_eq_self hd
  rw [formatCardNumber_of_ge4 d (by rw [hv]; exact h4), hv, List.take_of_length_le h16,
    removeWhiteSpace_join_space, parts_flatten]
  exact removeWhiteSpace_eq_self (fun c hc => not_isWhiteSpace_of_isDigit (hd c hc))

/-- C5 witness: the round trip on the 7-digit string `4111222`. -/
theorem C5_format_strip_roundtrip_witness :
    (∀ c ∈ js "4111222", isDigit c = true) ∧ 4 ≤ (js "4111222").length ∧
      (js "4111222").length ≤ 16 ∧
      removeWhiteSpace (formatCardNumber (js "4111222")) = js "4111222" :=
  ⟨by decide, by decide, by decide,
    C5_format_strip_roundtrip (js "4111222") (by decide) (by decide) (by decide)⟩

/-- C6: for every input text whose digits number `n ≥ 4`, `formatCardNumber` returns the
first `min n 16` of those digits cut from the left into consecutive groups of 4 (only the
last group may be shorter) joined by exactly one space, with no leading or trailing
space; `4111111111111111` gives `4111 1111 1111 1111`. -/
theorem C6_groups_of_four (t : JSString) (h : 4 ≤ (removeNonDigits t).length) :
    (∃ groups : List JSString,
      formatCardNumber t = join [SPACE] groups ∧
      groups.flatten = (removeNonDigits t).take (min (removeNonDigits t).length 16) ∧
      groups ≠ [] ∧
      (∀ g ∈ groups, 1 ≤ g.length ∧ g.length ≤ 4) ∧
      (∀ g ∈ groups.dropLast, g.length = 4) ∧
      (∀ g ∈ groups, ∀ c ∈ g, isDigit c = true)) ∧
    (formatCardNumber t).head? ≠ some SPACE ∧
    (formatCardNumber t).getLast? ≠ some SPACE ∧
    formatCardNumber (js "4111111111111111") = js "4111 1111 1111 1111" := by
  have hfmt := formatCardNumber_of_ge4 t h
  have hflat : (parts ((removeNonDigits t).take 16)).flatten = (removeNonDigits t).take 16 :=
    parts_flatten _
  have hne : (removeNonDigits t).take 16 ≠ [] := by
    intro he
    have := congrArg List.length he
    simp only [List.length_take, List.length_nil] at this
    omega
  have hlen : ∀ g ∈ parts ((removeNonDigits t).take 16), 1 ≤ g.length ∧ g.length ≤ 4 :=
    partsLoop_length_bounds _ _ _
  have hnonempty : ∀ g ∈ parts ((removeNonDigits t).take 16), g ≠ [] := by
    intro g hg he
    have := (hlen g hg).1
    rw [he] at this
    simp at this
  have hdig : ∀ c ∈ (parts ((removeNonDigits t).take 16)).flatten, isDigit c = true := by
    intro c hc
    rw [hflat] at hc
    exact removeNonDigits_all t c (List.mem_of_mem_take hc)
  refine ⟨⟨parts ((removeNonDigits t).take 16), hfmt, ?_, parts_ne_nil hne, hlen,
    partsLoop_dropLast_length _ _ _, ?_⟩, ?_, ?_, by decide⟩
  · rw [take_min_length]
    exact hflat
  · intro g hg c hc
    exact hdig c (List.mem_flatten.mpr ⟨g, hg, hc⟩)
  · intro hh
    rw [hfmt] at hh
    have := hdig SPACE (join_head [SPACE] _ hnonempty SPACE hh)
    rw [isDigit_SPACE] at this
    exact Bool.false_ne_true this
  · intro hh
    rw [hfmt] at hh
    have := hdig SPACE (join_getLast [SPACE] _ hnonempty SPACE hh)
    rw [isDigit_SPACE] at this
    exact Bool.false_ne_true this

/-- C6 witness: the text `12-34-56` holds six digits and is shown as `1234 56`. -/
theorem C6_groups_of_four_witness :
    4 ≤ (removeNonDigits (js "12-34-56")).length ∧
    formatCardNumber (js "12-34-56") = js "1234 56" ∧
    ((∃ groups : List JSString,
      formatCardNumber (js "12-34-56") = join [SPACE] groups ∧
      groups.flatten = (removeNonDigits (js "12-34-56")).take
        (min (removeNonDigits (js "12-34-56")).length 16) ∧
      groups ≠ [] ∧
      (∀ g ∈ groups, 1 ≤ g.length ∧ g.length ≤ 4) ∧
      (∀ g ∈ groups.dropLast, g.length = 4) ∧
      (∀ g ∈ groups, ∀ c ∈ g, isDigit c = true)) ∧
    (formatCardNumber (js "12-34-56")).head? ≠ some SPACE ∧
    (formatCardNumber (js "12-34-56")).getLast? ≠ some SPACE ∧
    formatCardNumber (js "4111111111111111") = js "4111 1111 1111 1111") :=
  ⟨by decide, by decide, C6_groups_of_four (js "12-34-56") (by decide)⟩

/-- C7: for every input text that contains fewer than 4 decimal digits, `formatCardNumber`
returns the input text unchanged, character for character; `abc123` gives `abc123`. -/
theorem C7_short_input_unchanged (t : JSString) (h : (removeNonDigits t).length < 4) :
    formatCardNumber t = t ∧ formatCardNumber (js "abc123") = js "abc123" :=
  ⟨formatCardNumber_of_lt4 t h, by decide⟩

/-- C7 witness: the text `1 2-x3` holds three digits and comes back unchanged. -/
theorem C7_short_input_unchanged_witness :
    (removeNonDigits (js "1 2-x3")).length < 4 ∧
      formatCardNumber (js "1 2-x3") = js "1 2-x3" ∧
      formatCardNumber (js "abc123") = js "abc123" :=
  ⟨by decide, C7_short_input_unchanged (js "1 2-x3") (by decide)⟩

/-- C8: for every input text whose digits number at least 3, `formatExpiry` returns the
first two of those digits, then a single slash, then all the remaining digits in order;
`1225` gives `12/25`. -/
theorem C8_expiry_slash_inserted (t : JSString) (h : 3 ≤ (removeNonDigits t).length) :
    (∃ d1 d2 rest, removeNonDigits t = d1 :: d2 :: rest ∧
      formatExpiry t = d1 :: d2 :: SLASH :: rest) ∧
    formatExpiry t = (removeNonDigits t).take 2 ++ [SLASH] ++ (removeNonDigits t).drop 2 ∧
    formatExpiry (js "1225") = js "12/25" := by
  obtain ⟨d1, d2, rest, hv, hf⟩ := formatExpiry_of_ge3 t h
  refine ⟨⟨d1, d2, rest, hv, hf⟩, ?_, by decide⟩
  rw [hf, hv]
  rfl

/-- C8 witness: the text `1a2b3` holds three digits and becomes `12/3`. -/
theorem C8_expiry_slash_inserted_witness :
    3 ≤ (removeNonDigits (js "1a2b3")).length ∧
    formatExpiry (js "1a2b3") = js "12/3" ∧
    ((∃ d1 d2 rest, removeNonDigits (js "1a2b3") = d1 :: d2 :: rest ∧
      formatExpiry (js "1a2b3") = d1 :: d2 :: SLASH :: rest) ∧
    formatExpiry (js "1a2b3") =
      (removeNonDigits (js "1a2b3")).take 2 ++ [SLASH] ++ (removeNonDigits (js "1a2b3")).drop 2 ∧
    formatExpiry (js "1225") = js "12/25") :=
  ⟨by decide, by decide, C8_expiry_slash_inserted (js "1a2b3") (by decide)⟩

/-- C9: for every input text that contains fewer than 3 decimal digits, `formatExpiry`
returns the input text unchanged, character for character; `1` gives `1`. -/
theorem C9_expiry_short_unchanged (t : JSString) (h : (removeNonDigits t).length < 3) :
    formatExpiry t = t ∧ formatExpiry (js "1") = js "1" :=
  ⟨formatExpiry_of_lt3 t h, by decide⟩

/-- C9 witness: the text `1/2` holds two digits and comes back unchanged. -/
theorem C9_expiry_short_unchanged_witness :
    (removeNonDigits (js "1/2")).length < 3 ∧ formatExpiry (js "1/2") = js "1/2" ∧
      formatExpiry (js "1") = js "1" :=
  ⟨by decide, C9_expiry_short_unchanged (js "1/2") (by decide)⟩

/-- C10 (as amended): for every text typed into the expiry field that contains at least
3 decimal digits, if the stored expiry passes the expiry rule of `handleSubmit`, then it is
a fully formed `MM/YY` string: two decimal digits, a slash, then two decimal digits. -/
theorem C10_passing_expiry_is_MMYY (cd : CardDetails) (t : JSString)
    (h : 3 ≤ (removeNonDigits t).length)
    (hpass : expiryFails (expiryOnChange cd t) = false) :
    isMMYY (expiryOnChange cd t).expiry = true := by
  obtain ⟨d1, d2, rest, hv, hf⟩ := formatExpiry_of_ge3 t h
  have hall := removeNonDigits_all t
  rw [hv] at hall
  simp only [expiryFails, expiryOnChange, hf, falsy, List.isEmpty_cons, Bool.false_or,
    bne_eq_false_iff_eq, List.length_cons] at hpass
  match rest, hpass, hall with
  | [c, d], _, hall =>
    have h1 := hall d1 (by simp)
    have h2 := hall d2 (by simp)
    have h3 := hall c (by simp)
    have h4 := hall d (by simp)
    simp [expiryOnChange, hf, isMMYY, h1, h2, h3, h4]

/-- C10 witness: the text `0927` is stored as `09/27`, which passes and is `MM/YY`. -/
theorem C10_passing_expiry_is_MMYY_witness :
    3 ≤ (removeNonDigits (js "0927")).length ∧
      expiryFails (expiryOnChange emptyCard (js "0927")) = false ∧
      (expiryOnChange emptyCard (js "0927")).expiry = js "09/27" ∧
      isMMYY (expiryOnChange emptyCard (js "0927")).expiry = true :=
  ⟨by decide, by decide, by decide,
    C10_passing_expiry_is_MMYY emptyCard (js "0927") (by decide) (by decide)⟩

/-- C10 counterexample: the five letters `abcde` are stored unchanged and pass the expiry
rule, yet the stored expiry is not of the form `MM/YY`. -/
theorem C10_counterexample :
    (expiryOnChange emptyCard (js "abcde")).expiry = js "abcde" ∧
      expiryFails (expiryOnChange emptyCard (js "abcde")) = false ∧
      ¬ isMMYY (expiryOnChange emptyCard (js "abcde")).expiry = true := by
  decide

/-! ## The registration form, the checkout state machine and the login handlers -/

theorem cardValid_eq_false_iff (c : CardDetails) :
    cardValid c = false ↔
      (numberFails c || nameFails c || expiryFails c || cvcFails c) = true := by
  simp only [cardValid]
  cases numberFails c <;> cases nameFails c <;> cases expiryFails c <;> cases cvcFails c <;>
    simp

theorem handleSubmit_of_valid (s : CheckoutState) (h : cardValid s.cardDetails = true) :
    handleSubmit s =
      { s with processing := true, paymentError := none, paymentSuccess := true,
               onSuccessCalls := s.onSuccessCalls + 1 } := by
  simp only [cardValid, Bool.and_eq_true, Bool.not_eq_true_eq_eq_false] at h
  obtain ⟨⟨⟨h1, h2⟩, h3⟩, h4⟩ := h
  simp [handleSubmit, h1, h2, h3, h4]

theorem handleSubmit_of_invalid (s : CheckoutState) (h : cardValid s.cardDetails = false) :
    ∃ m, m ≠ [] ∧ handleSubmit s = { s with processing := false, paymentError := some m } := by
  have n1 : msgNumber ≠ [] := by decide
  have n2 : msgName ≠ [] := by decide
  have n3 : msgExpiry ≠ [] := by decide
  have n4 : msgCvc ≠ [] := by decide
  rw [cardValid_eq_false_iff] at h
  simp only [handleSubmit]
  cases h1 : numberFails s.cardDetails
  · cases h2 : nameFails s.cardDetails
    · cases h3 : expiryFails s.cardDetails
      · cases h4 : cvcFails s.cardDetails
        · simp [h1, h2, h3, h4] at h
        · exact ⟨msgCvc, n4, by simp⟩
      · exact ⟨msgExpiry, n3, by simp⟩
    · exact ⟨msgName, n2, by simp⟩
  · exact ⟨msgNumber, n1, by simp⟩

theorem submitAll_paymentSuccess :
    ∀ (cs : List CardDetails) (s : CheckoutState),
      (submitAll s cs).paymentSuccess = (s.paymentSuccess || cs.any cardValid) ∧
      (submitAll s cs).onSuccessCalls = s.onSuccessCalls + (cs.filter cardValid).length
  | [], s => by simp [submitAll]
  | c :: cs, s => by
    have ih := submitAll_paymentSuccess cs (handleSubmit { s with cardDetails := c })
    simp only [submitAll, ih, List.any_cons, List.filter_cons]
    cases hv : cardValid c
    · obtain ⟨m, _, hm⟩ := handleSubmit_of_invalid { s with cardDetails := c } hv
      rw [hm]
      simp
    · rw [handleSubmit_of_valid { s with cardDetails := c } hv]
      simp
      omega

theorem validateErrors_keys (fd : FormData) :
    (Harb.validateErrors fd).keys = requiredFields.filter (fun f => falsy (fd.get f)) := by
  simp only [Harb.validateErrors, requiredFields, List.filter, FormData.get]
  cases falsy fd.companyName <;> cases falsy fd.registrationNumber <;>
    cases falsy fd.headOfficeAddress <;> cases falsy fd.phoneNumber <;>
    cases falsy fd.emailAddress <;> rfl

theorem falsy_eq_true_iff (x : JSString) : falsy x = true ↔ x = [] := by
  simp [falsy]

theorem ne_nil_iff_falsy (x : JSString) : x ≠ [] ↔ falsy x = false := by
  cases x <;> simp [falsy]

/-- C11: the keys of the error object computed by `Harb.validateForm` are exactly those of
the five required fields whose value is empty, each once and all in the same object; there
is never a key for `brandName` or `website`; with only `brandName` and `website` filled the
key set is exactly the five required fields. -/
theorem C11_error_keys_are_empty_required_fields (s : Harb.State) :
    (∀ f : FormField, f ∈ (Harb.validateForm s).1.formErrors.keys ↔
      (f ∈ requiredFields ∧ s.formData.get f = [])) ∧
    (Harb.validateForm s).1.formErrors.keys.Nodup ∧
    FormField.brandName ∉ (Harb.validateForm s).1.formErrors.keys ∧
    FormField.website ∉ (Harb.validateForm s).1.formErrors.keys ∧
    (∀ b w : JSString,
      (Harb.validateForm { s with formData :=
        { FormData.empty with brandName := b, website := w } }).1.formErrors.keys =
      [.companyName, .registrationNumber, .headOfficeAddress, .phoneNumber, .emailAddress]) := by
  have hk : (Harb.validateForm s).1.formErrors.keys =
      requiredFields.filter (fun f => falsy (s.formData.get f)) := validateErrors_keys _
  have hmem : ∀ f : FormField, f ∈ (Harb.validateForm s).1.formErrors.keys ↔
      (f ∈ requiredFields ∧ s.formData.get f = []) := by
    intro f
    rw [hk, List.mem_filter, falsy_eq_true_iff]
  refine ⟨hmem, ?_, ?_, ?_, ?_⟩
  · rw [hk]
    exact List.Nodup.filter _ (by decide)
  · intro h
    exact absurd ((hmem _).mp h).1 (by decide)
  · intro h
    exact absurd ((hmem _).mp h).1 (by decide)
  · intro b w
    simp only [Harb.validateForm]
    rw [validateErrors_keys]
    rfl

/-- C12: `Harb.handleSubmit` opens the payment dialog exactly when `companyName`,
`registrationNumber`, `headOfficeAddress`, `phoneNumber` and `emailAddress` are all
non-empty, and otherwise leaves `showPayment` as it was; the values of `brandName` and
`website` never change the outcome. -/
theorem C12_payment_dialog_iff_required_filled (s : Harb.State) :
    ((Harb.validateForm s).2 = true ↔
      (s.formData.companyName ≠ [] ∧ s.formData.registrationNumber ≠ [] ∧
        s.formData.headOfficeAddress ≠ [] ∧ s.formData.phoneNumber ≠ [] ∧
        s.formData.emailAddress ≠ [])) ∧
    (Harb.handleSubmit s).showPayment = ((Harb.validateForm s).2 || s.showPayment) ∧
    ((Harb.handleSubmit { s with showPayment := false }).showPayment = true ↔
      (s.formData.companyName ≠ [] ∧ s.formData.registrationNumber ≠ [] ∧
        s.formData.headOfficeAddress ≠ [] ∧ s.formData.phoneNumber ≠ [] ∧
        s.formData.emailAddress ≠ [])) ∧
    (∀ b w : JSString,
      (Harb.handleSubmit { s with formData :=
        { s.formData with brandName := b, website := w } }).showPayment =
      (Harb.handleSubmit s).showPayment) := by
  have hv : ∀ t : Harb.State, ((Harb.validateForm t).2 = true ↔
      (t.formData.companyName ≠ [] ∧ t.formData.registrationNumber ≠ [] ∧
        t.formData.headOfficeAddress ≠ [] ∧ t.formData.phoneNumber ≠ [] ∧
        t.formData.emailAddress ≠ [])) := by
    intro t
    have hk : (Harb.validateForm t).2 =
        ((requiredFields.filter (fun f => falsy (t.formData.get f))).length == 0) := by
      simp only [Harb.validateForm, validateErrors_keys]
    rw [hk]
    simp only [requiredFields, List.filter, FormData.get, ne_nil_iff_falsy]
    cases falsy t.formData.companyName <;> cases falsy t.formData.registrationNumber <;>
      cases falsy t.formData.headOfficeAddress <;> cases falsy t.formData.phoneNumber <;>
      cases falsy t.formData.emailAddress <;> simp
  have hs : ∀ t : Harb.State,
      (Harb.handleSubmit t).showPayment = ((Harb.validateForm t).2 || t.showPayment) := by
    intro t
    simp only [Harb.handleSubmit]
    cases h : (Harb.validateForm t).2
    · simp [Harb.validateForm]
    · simp
  refine ⟨hv s, hs s, ?_, ?_⟩
  · rw [hs, Bool.or_false]
    exact hv _
  · intro b w
    rw [hs, hs]
    have h1 := hv { s with formData := { s.formData with brandName := b, website := w } }
    have h2 := hv s
    have h3 : (Harb.validateForm
        { s with formData := { s.formData with brandName := b, website := w } }).2 =
        (Harb.validateForm s).2 := by
      rw [Bool.eq_iff_iff, h1, h2]
    rw [h3]

/-- C13: running `Harb.validateForm` twice in a row without editing the record yields the
same error object and the same boolean both times, the second run changes nothing at all,
and `formData` is the same before and after each run. -/
theorem C13_validateForm_idempotent (s : Harb.State) :
    (Harb.validateForm (Harb.validateForm s).1).1.formErrors =
      (Harb.validateForm s).1.formErrors ∧
    (Harb.validateForm (Harb.validateForm s).1).2 = (Harb.validateForm s).2 ∧
    (Harb.validateForm (Harb.validateForm s).1).1 = (Harb.validateForm s).1 ∧
    (Harb.validateForm s).1.formData = s.formData ∧
    (Harb.validateForm (Harb.validateForm s).1).1.formData = s.formData :=
  ⟨rfl, rfl, rfl, rfl, rfl⟩

/-- C14: for every card record that fails validation, after `handleSubmit` completes the
form is back in the editing state with an error attached: `processing` is false,
`paymentError` is a non-empty message, `paymentSuccess` is what it was (still false),
`onSuccess` was not invoked and `cardDetails` is unchanged. -/
theorem C14_failed_submit_returns_to_editing (s : CheckoutState)
    (hfail : cardValid s.cardDetails = false) :
    (handleSubmit s).processing = false ∧
    (∃ m, (handleSubmit s).paymentError = some m ∧ m ≠ []) ∧
    (handleSubmit s).paymentSuccess = s.paymentSuccess ∧
    (handleSubmit s).onSuccessCalls = s.onSuccessCalls ∧
    (handleSubmit s).cardDetails = s.cardDetails := by
  obtain ⟨m, hm, he⟩ := handleSubmit_of_invalid s hfail
  rw [he]
  exact ⟨rfl, ⟨m, rfl, hm⟩, rfl, rfl, rfl⟩

/-- C14 witness: submitting the freshly mounted, empty form. -/
theorem C14_failed_submit_returns_to_editing_witness :
    cardValid CheckoutState.initial.cardDetails = false ∧
    (handleSubmit CheckoutState.initial).processing = false ∧
    (∃ m, (handleSubmit CheckoutState.initial).paymentError = some m ∧ m ≠ []) ∧
    (handleSubmit CheckoutState.initial).paymentSuccess = false ∧
    (handleSubmit CheckoutState.initial).onSuccessCalls = 0 ∧
    (handleSubmit CheckoutState.initial).cardDetails = CheckoutState.initial.cardDetails :=
  ⟨by decide, C14_failed_submit_returns_to_editing CheckoutState.initial (by decide)⟩

/-- C15: in the checkout state machine `paymentSuccess` is true after a submission exactly
when it was true before or the submitted record passed the validator; a submission leaves
`paymentError` null exactly when the record passed, and invokes `onSuccess` once when it
passed and not at all otherwise; from the mounted state a sequence of submissions reaches
the succeeded state exactly when one of its records passed, with one `onSuccess` call per
passing record. -/
theorem C15_succeeded_only_through_validator (s : CheckoutState) (cs : List CardDetails) :
    (handleSubmit s).paymentSuccess = (s.paymentSuccess || cardValid s.cardDetails) ∧
    ((handleSubmit s).paymentError = none ↔ cardValid s.cardDetails = true) ∧
    (handleSubmit s).onSuccessCalls =
      s.onSuccessCalls + (if cardValid s.cardDetails = true then 1 else 0) ∧
    (submitAll CheckoutState.initial cs).paymentSuccess = cs.any cardValid ∧
    (submitAll CheckoutState.initial cs).onSuccessCalls = (cs.filter cardValid).length := by
  have hseq := submitAll_paymentSuccess cs CheckoutState.initial
  refine ⟨?_, ?_, ?_, ?_, ?_⟩
  · cases hv : cardValid s.cardDetails
    · obtain ⟨m, _, he⟩ := handleSubmit_of_invalid s hv
      rw [he]
      simp
    · rw [handleSubmit_of_valid s hv]
      simp
  · cases hv : cardValid s.cardDetails
    · obtain ⟨m, _, he⟩ := handleSubmit_of_invalid s hv
      rw [he]
      simp
    · rw [handleSubmit_of_valid s hv]
      simp
  · cases hv : cardValid s.cardDetails
    · obtain ⟨m, _, he⟩ := handleSubmit_of_invalid s hv
      rw [he]
      simp
    · rw [handleSubmit_of_valid s hv]
      simp
  · rw [hseq.1]
    simp [CheckoutState.initial]
  · rw [hseq.2]
    simp [CheckoutState.initial]

/-- C16: for `Harb.saveToDatabase` with the outcome of the store write taken as an input:
if the write succeeds, `formData` is reset to all seven fields empty; if the write fails,
`formData` is exactly what it was before the call; in both cases `isLoading` ends false
and `showPayment` ends false. -/
theorem C16_save_resets_or_retains_form (s : Harb.State) (companyId : JSString) (now : Nat) :
    (Harb.saveToDatabase s companyId now .ok).state.formData = FormData.empty ∧
    (∀ f : FormField, (Harb.saveToDatabase s companyId now .ok).state.formData.get f = []) ∧
    (∀ message : JSString,
      (Harb.saveToDatabase s companyId now (.error message)).state.formData = s.formData) ∧
    (∀ outcome : Harb.WriteOutcome,
      (Harb.saveToDatabase s companyId now outcome).state.isLoading = false ∧
      (Harb.saveToDatabase s companyId now outcome).state.showPayment = false) := by
  refine ⟨rfl, ?_, fun _ => rfl, ?_⟩
  · intro f
    cases f <;> rfl
  · intro outcome
    cases outcome <;> exact ⟨rfl, rfl⟩

/-- C17: for every registration form record, generated id and clock reading, the record
`Harb.saveToDatabase` writes is stored under the key path `companies/` followed by the id,
and consists of the seven form fields with their values unchanged plus `timestamp` equal
to the clock reading, `paymentStatus` equal to `completed` and `amountPaid` equal to 99. -/
theorem C17_written_record (s : Harb.State) (companyId : JSString) (now : Nat)
    (outcome : Harb.WriteOutcome) :
    (Harb.saveToDatabase s companyId now outcome).path = js "companies/" ++ companyId ∧
    (Harb.saveToDatabase s companyId now outcome).record =
      { companyName := s.formData.companyName, brandName := s.formData.brandName,
        registrationNumber := s.formData.registrationNumber,
        headOfficeAddress := s.formData.headOfficeAddress,
        phoneNumber := s.formData.phoneNumber, emailAddress := s.formData.emailAddress,
        website := s.formData.website,
        timestamp := now, paymentStatus := js "completed", amountPaid := 99 } := by
  cases outcome <;> exact ⟨rfl, rfl⟩

/-- C18: for both sign-in handlers of the farmer login, with the identity provider's
outcome taken as an input: on success the handler navigates to the fixed destination
`/farmer` and sets no error message (`handleLogin` leaves the error empty,
`handleGoogleSignIn` leaves it untouched); on failure it does not navigate and the error
state equals the provider's message string exactly. -/
theorem C18_sign_in_outcomes (s : Flogin.State) (message : JSString) :
    (Flogin.handleLogin s .success).navigations = s.navigations ++ [js "/farmer"] ∧
    (Flogin.handleLogin s .success).error = js "" ∧
    (Flogin.handleGoogleSignIn s .success).navigations = s.navigations ++ [js "/farmer"] ∧
    (Flogin.handleGoogleSignIn s .success).error = s.error ∧
    (Flogin.handleLogin s (.failure message)).navigations = s.navigations ∧
    (Flogin.handleLogin s (.failure message)).error = message ∧
    (Flogin.handleGoogleSignIn s (.failure message)).navigations = s.navigations ∧
    (Flogin.handleGoogleSignIn s (.failure message)).error = message :=
  ⟨rfl, rfl, rfl, rfl, rfl, rfl, rfl, rfl⟩

/-- C19 (as amended): for every text of at most 5 characters that contains at most 4
decimal digits, the expiry value stored by the `onChange` handler, `formatExpiry text`,
has at most 5 characters. -/
theorem C19_stored_expiry_length (cd : CardDetails) (t : JSString) (h5 : t.length ≤ 5)
    (h4 : (removeNonDigits t).length ≤ 4) :
    (expiryOnChange cd t).expiry.length ≤ 5 := by
  by_cases h3 : 3 ≤ (removeNonDigits t).length
  · obtain ⟨d1, d2, rest, hv, hf⟩ := formatExpiry_of_ge3 t h3
    rw [hv] at h4
    simp only [List.length_cons] at h4
    simp only [expiryOnChange, hf, List.length_cons]
    omega
  · simp only [expiryOnChange, formatExpiry_of_lt3 t (by omega)]
    exact h5

/-- C19 witness: the text `1225` is stored as the 5-character `12/25`. -/
theorem C19_stored_expiry_length_witness :
    (js "1225").length ≤ 5 ∧ (removeNonDigits (js "1225")).length ≤ 4 ∧
      (expiryOnChange emptyCard (js "1225")).expiry.length ≤ 5 :=
  ⟨by decide, by decide, C19_stored_expiry_length emptyCard (js "1225") (by decide) (by decide)⟩

/-- C19 counterexample: the 5-character text `12345` is stored as the 6-character
`12/345`. -/
theorem C19_counterexample :
    (js "12345").length ≤ 5 ∧
      (expiryOnChange emptyCard (js "12345")).expiry = js "12/345" ∧
      ¬ (expiryOnChange emptyCard (js "12345")).expiry.length ≤ 5 := by
  decide

/-- C20 (as amended): every card record that the validator lets proceed and whose cvc was
entered through the cvc input (a text of at most 4 characters, stored as typed) has a cvc
of length 3 or 4. -/
theorem C20_valid_cvc_length (cd : CardDetails) (text : JSString) (hlen : text.length ≤ 4)
    (hvalid : cardValid (handleCardChange cd .cvc text) = true) :
    (handleCardChange cd .cvc text).cvc = text ∧
    3 ≤ (handleCardChange cd .cvc text).cvc.length ∧
    (handleCardChange cd .cvc text).cvc.length ≤ 4 := by
  simp only [cardValid, Bool.and_eq_true, Bool.not_eq_true_eq_eq_false] at hvalid
  have hc := hvalid.2
  simp only [cvcFails, handleCardChange, Bool.or_eq_false_iff, decide_eq_false_iff_not] at hc
  refine ⟨rfl, ?_, hlen⟩
  simp only [handleCardChange]
  omega

/-- C20 witness: a record filled in through the inputs whose cvc is `1234`. -/
theorem C20_valid_cvc_length_witness :
    (js "1234").length ≤ 4 ∧
    cardValid (handleCardChange lettersCvcCard .cvc (js "1234")) = true ∧
    (handleCardChange lettersCvcCard .cvc (js "1234")).cvc = js "1234" ∧
    3 ≤ (handleCardChange lettersCvcCard .cvc (js "1234")).cvc.length ∧
    (handleCardChange lettersCvcCard .cvc (js "1234")).cvc.length ≤ 4 :=
  ⟨by decide, by decide,
    C20_valid_cvc_length lettersCvcCard (js "1234") (by decide) (by decide)⟩

/-- C20 counterexample: the record filled in through the inputs with the cvc `abc` passes
the validator and the payment proceeds, yet its cvc is not a string of decimal digits. -/
theorem C20_counterexample :
    lettersCvcCard.cvc = js "abc" ∧
    cardValid lettersCvcCard = true ∧
    (handleSubmit { CheckoutState.initial with cardDetails := lettersCvcCard }).paymentSuccess
      = true ∧
    ¬ ((∀ c ∈ lettersCvcCard.cvc, isDigit c = true) ∧
      (lettersCvcCard.cvc.length = 3 ∨ lettersCvcCard.cvc.length = 4)) := by
  decide

/-! ## Size of the formatted card number, idempotence of the formatters -/

theorem join_length (sep : JSString) :
    ∀ ps : List JSString,
      (join sep ps).length = ps.flatten.length + sep.length * (ps.length - 1)
  | [] => rfl
  | [p] => by simp [join]
  | p :: q :: ps => by
    have ih := join_length sep (q :: ps)
    simp only [join, List.length_append, ih, List.flatten_cons, List.length_cons,
      Nat.add_sub_cancel]
    rw [Nat.mul_add]
    omega

theorem partsLoop_length_le (m : JSString) :
    ∀ (n i : Nat), i < m.length → 4 * (partsLoop m n i).length ≤ (m.length - i) + 3
  | 0, _, _ => by simp [partsLoop]
  | n + 1, i, hi => by
    simp only [partsLoop, if_pos hi, List.length_cons]
    by_cases h4 : i + 4 < m.length
    · have ih := partsLoop_length_le m n (i + 4) h4
      omega
    · have hnil : partsLoop m n (i + 4) = [] := by
        by_contra hne
        exact h4 (partsLoop_ne_nil_lt m n (i + 4) hne)
      rw [hnil]
      simp only [List.length_nil]
      omega

theorem parts_length_le {m : JSString} (h : m.length ≤ 16) : (parts m).length ≤ 4 := by
  cases m with
  | nil => simp [parts_nil]
  | cons c cs =>
    have := partsLoop_length_le (c :: cs) (c :: cs).length 0 (by simp)
    simp only [parts]
    omega

theorem count_add_filter_le (a : Nat) (p : Nat → Bool) (hp : p a = false) :
    ∀ l : List Nat, l.count a + (l.filter p).length ≤ l.length
  | [] => by simp
  | c :: cs => by
    have ih := count_add_filter_le a p hp cs
    by_cases hc : c = a
    · subst hc
      simp only [List.count_cons_self, List.filter_cons, hp, List.length_cons]
      simp only [Bool.false_eq_true, if_false]
      omega
    · rw [List.count_cons_of_ne (Ne.symm hc)]
      cases hpc : p c
      · simp only [List.filter_cons, hpc, Bool.false_eq_true, if_false, List.length_cons]
        omega
      · simp only [List.filter_cons, hpc, if_true, List.length_cons]
        omega

theorem removeNonDigits_formatCardNumber (t : JSString) (h : 4 ≤ (removeNonDigits t).length) :
    removeNonDigits (formatCardNumber t) = (removeNonDigits t).take 16 := by
  rw [formatCardNumber_of_ge4 t h, removeNonDigits_join_space, parts_flatten]
  exact removeNonDigits_eq_self
    (fun c hc => removeNonDigits_all t c (List.mem_of_mem_take hc))

theorem removeWhiteSpace_formatCardNumber (t : JSString) (h : 4 ≤ (removeNonDigits t).length) :
    removeWhiteSpace (formatCardNumber t) = (removeNonDigits t).take 16 := by
  rw [formatCardNumber_of_ge4 t h, removeWhiteSpace_join_space, parts_flatten]
  exact removeWhiteSpace_eq_self (fun c hc =>
    not_isWhiteSpace_of_isDigit (removeNonDigits_all t c (List.mem_of_mem_take hc)))

theorem isDigit_SLASH : isDigit SLASH = false := by decide

/-- C21: for every input text that contains at least 4 decimal digits, `formatCardNumber`
returns a string of at most 19 characters containing at most 16 digits and at most 3
spaces, however long the input is. -/
theorem C21_formatted_number_size (t : JSString) (h : 4 ≤ (removeNonDigits t).length) :
    (formatCardNumber t).length ≤ 19 ∧
    (removeNonDigits (formatCardNumber t)).length ≤ 16 ∧
    (formatCardNumber t).count SPACE ≤ 3 := by
  have hd := removeNonDigits_formatCardNumber t h
  have hm : ((removeNonDigits t).take 16).length ≤ 16 := by
    simp only [List.length_take]
    omega
  have hk := parts_length_le hm
  have hl : (formatCardNumber t).length =
      ((removeNonDigits t).take 16).length +
        (parts ((removeNonDigits t).take 16)).length - 1 := by
    rw [formatCardNumber_of_ge4 t h, join_length, parts_flatten]
    simp only [List.length_singleton, Nat.one_mul]
    have hne : (removeNonDigits t).take 16 ≠ [] := by
      intro he
      have := congrArg List.length he
      simp only [List.length_take, List.length_nil] at this
      omega
    have hk1 := List.length_pos.mpr (parts_ne_nil hne)
    omega
  have hc := count_add_filter_le SPACE isDigit isDigit_SPACE (formatCardNumber t)
  have hd2 : ((formatCardNumber t).filter isDigit).length =
      ((removeNonDigits t).take 16).length := congrArg List.length hd
  refine ⟨by omega, ?_, by omega⟩
  rw [hd]
  exact hm

/-- C21 witness: a text of 24 digits with separators is cut down to 19 characters. -/
theorem C21_formatted_number_size_witness :
    4 ≤ (removeNonDigits (js "1234-5678-9012-3456-7890-1234")).length ∧
    formatCardNumber (js "1234-5678-9012-3456-7890-1234") = js "1234 5678 9012 3456" ∧
    ((formatCardNumber (js "1234-5678-9012-3456-7890-1234")).length ≤ 19 ∧
    (removeNonDigits (formatCardNumber (js "1234-5678-9012-3456-7890-1234"))).length ≤ 16 ∧
    (formatCardNumber (js "1234-5678-9012-3456-7890-1234")).count SPACE ≤ 3) :=
  ⟨by decide, by decide,
    C21_formatted_number_size (js "1234-5678-9012-3456-7890-1234") (by decide)⟩

theorem expiryFails_iff (c : CardDetails) : expiryFails c = true ↔ c.expiry.length ≠ 5 := by
  cases h : c.expiry with
  | nil => simp [expiryFails, falsy, h]
  | cons a as => simp [expiryFails, falsy, h]

theorem numberFails_iff (c : CardDetails) :
    numberFails c = true ↔ (removeWhiteSpace c.number).length ≠ 16 := by
  cases h : c.number with
  | nil => simp [numberFails, falsy, h, removeWhiteSpace]
  | cons a as => simp [numberFails, falsy, h]

/-- C22: no calendar check is applied to the expiry: the expiry rule of `handleSubmit` looks
at the length alone; the typed text `9999` is stored as `99/99`, whose month part 99 is
outside 01-12, and the card record with that stored expiry and otherwise valid fields is
accepted by the validator and the payment proceeds. -/
theorem C22_no_calendar_check :
    (∀ c : CardDetails, expiryFails c = true ↔ c.expiry.length ≠ 5) ∧
    (expiryOnChange expiryPendingCard (js "9999")).expiry = js "99/99" ∧
    (∃ m, expiryMonth (expiryOnChange expiryPendingCard (js "9999")).expiry = some m ∧
      ¬ (1 ≤ m ∧ m ≤ 12)) ∧
    cardValid (expiryOnChange expiryPendingCard (js "9999")) = true ∧
    (handleSubmit { CheckoutState.initial with
      cardDetails := expiryOnChange expiryPendingCard (js "9999") }).paymentError = none ∧
    (handleSubmit { CheckoutState.initial with
      cardDetails := expiryOnChange expiryPendingCard (js "9999") }).paymentSuccess = true := by
  refine ⟨expiryFails_iff, by decide, ⟨99, by decide, by decide⟩, by decide, by decide,
    by decide⟩

/-- C23: for every typed text that contains at least 4 decimal digits the stored number is
the first 16 digits of the text (all of them when there are fewer); when the text contains
at least 16 digits the stored number passes the number rule of the validator, and when it
contains between 4 and 15 digits the stored number fails it. -/
theorem C23_stored_number_first_16_digits (cd : CardDetails) (t : JSString)
    (h : 4 ≤ (removeNonDigits t).length) :
    (numberOnChange cd t).number = (removeNonDigits t).take 16 ∧
    (16 ≤ (removeNonDigits t).length → numberFails (numberOnChange cd t) = false) ∧
    ((removeNonDigits t).length ≤ 15 → numberFails (numberOnChange cd t) = true) := by
  have hs : (numberOnChange cd t).number = (removeNonDigits t).take 16 :=
    removeWhiteSpace_formatCardNumber t h
  have hw : removeWhiteSpace (numberOnChange cd t).number = (removeNonDigits t).take 16 := by
    simp only [numberOnChange, removeWhiteSpace_idem]
    exact removeWhiteSpace_formatCardNumber t h
  refine ⟨hs, ?_, ?_⟩
  · intro h16
    rw [← Bool.not_eq_true, numberFails_iff, hw]
    simp only [List.length_take, ne_eq, not_not]
    omega
  · intro h15
    rw [numberFails_iff, hw]
    simp only [List.length_take, ne_eq]
    omega

/-- C23 witness: a text of 20 digits with separators is stored as its first 16 digits and
passes the number rule; a text of 8 digits is stored as those digits and fails it. -/
theorem C23_stored_number_first_16_digits_witness :
    (4 ≤ (removeNonDigits (js "1234-5678-9012-3456-7890")).length ∧
      16 ≤ (removeNonDigits (js "1234-5678-9012-3456-7890")).length ∧
      (numberOnChange emptyCard (js "1234-5678-9012-3456-7890")).number =
        js "1234567890123456" ∧
      numberFails (numberOnChange emptyCard (js "1234-5678-9012-3456-7890")) = false) ∧
    (4 ≤ (removeNonDigits (js "1234 5678")).length ∧
      (removeNonDigits (js "1234 5678")).length ≤ 15 ∧
      (numberOnChange emptyCard (js "1234 5678")).number = js "12345678" ∧
      numberFails (numberOnChange emptyCard (js "1234 5678")) = true) :=
  ⟨⟨by decide, by decide,
    (C23_stored_number_first_16_digits emptyCard (js "1234-5678-9012-3456-7890")
      (by decide)).1.trans (by decide),
    (C23_stored_number_first_16_digits emptyCard (js "1234-5678-9012-3456-7890")
      (by decide)).2.1 (by decide)⟩,
   ⟨by decide, by decide,
    (C23_stored_number_first_16_digits emptyCard (js "1234 5678") (by decide)).1.trans
      (by decide),
    (C23_stored_number_first_16_digits emptyCard (js "1234 5678") (by decide)).2.2
      (by decide)⟩⟩

/-- C24: `formatExpiry` is idempotent: `formatExpiry (formatExpiry x) = formatExpiry x` for
every text `x`, so the expiry shown in the field (`formatExpiry` applied to the stored
value) always equals the stored value. -/
theorem C24_formatExpiry_idempotent (x : JSString) :
    formatExpiry (formatExpiry x) = formatExpiry x ∧
    (∀ cd : CardDetails,
      formatExpiry (expiryOnChange cd x).expiry = (expiryOnChange cd x).expiry) ∧
    formatExpiry CheckoutState.initial.cardDetails.expiry =
      CheckoutState.initial.cardDetails.expiry := by
  have key : formatExpiry (formatExpiry x) = formatExpiry x := by
    by_cases h3 : 3 ≤ (removeNonDigits x).length
    · obtain ⟨d1, d2, rest, hv, hf⟩ := formatExpiry_of_ge3 x h3
      have hall := removeNonDigits_all x
      rw [hv] at hall
      have h1 : isDigit d1 = true := hall d1 (by simp)
      have h2 : isDigit d2 = true := hall d2 (by simp)
      have hr : rest.filter isDigit = rest :=
        List.filter_eq_self.mpr (fun c hc => hall c (by simp [hc]))
      have hy : removeNonDigits (d1 :: d2 :: SLASH :: rest) = d1 :: d2 :: rest := by
        simp [removeNonDigits, List.filter_cons, h1, h2, isDigit_SLASH, hr]
      have hlen : 3 ≤ (removeNonDigits (d1 :: d2 :: SLASH :: rest)).length := by
        rw [hy, ← hv]
        exact h3
      obtain ⟨e1, e2, rest2, hv2, hf2⟩ := formatExpiry_of_ge3 _ hlen
      rw [hy] at hv2
      simp only [List.cons.injEq] at hv2
      obtain ⟨rfl, rfl, rfl⟩ := hv2
      rw [hf, hf2]
    · have hlt := formatExpiry_of_lt3 x (by omega)
      rw [hlt, hlt]
  exact ⟨key, fun _ => key, by decide⟩

/-- C25: `formatCardNumber` is idempotent: for every text `x`,
`formatCardNumber (formatCardNumber x) = formatCardNumber x`. -/
theorem C25_formatCardNumber_idempotent (x : JSString) :
    formatCardNumber (formatCardNumber x) = formatCardNumber x := by
  by_cases h4 : 4 ≤ (removeNonDigits x).length
  · have hd := removeNonDigits_formatCardNumber x h4
    have hlen : 4 ≤ (removeNonDigits (formatCardNumber x)).length := by
      rw [hd]
      simp only [List.length_take]
      omega
    rw [formatCardNumber_of_ge4 (formatCardNumber x) hlen, hd, List.take_take, Nat.min_self]
    exact (formatCardNumber_of_ge4 x h4).symm
  · have hlt := formatCardNumber_of_lt4 x (by omega)
    rw [hlt, hlt]

end EcoTrack
